import Mathlib

/-!
# Shallow embedding of `run_eval_whisper.py`

The script evaluates a speech-recognition model on several language
configurations of a dataset and prints one Word Error Rate line per
zipped (language, config) pair.

Modelling conventions:
* A dataset sample is a Python dict; its string-valued columns are an
  association list `Fields`, and the audio payload is kept in a separate
  structure field of an abstract type `α` (the transcript column names never
  clash with `"audio"`, so membership tests over `Fields` are faithful).
* Code that raises becomes `Except String`.
* The four external components (the `BasicTextNormalizer`, the
  `transformers` ASR pipeline, `evaluate`'s WER metric, and the dataset
  loader with its split concatenation and audio casting) are abstract
  functions collected in an `Env`; the script treats each as a black box.
-/

namespace RunEvalWhisper

/-- The string-valued columns of a dataset sample, as a key-value list. -/
abbrev Fields := List (String × String)

/-- Python dict read `d[key]` / membership `key in d`: first binding wins. -/
def lookupField : Fields → String → Option String
  | [], _ => none
  | (k, v) :: rest, key => if k = key then some v else lookupField rest key

/-- Python dict assignment `d[k] = v`: overwrite the existing binding in
place if the key is present, otherwise append the new binding. -/
def setField (d : Fields) (k v : String) : Fields :=
  if (lookupField d k).isSome then
    d.map (fun p => if p.1 = k then (k, v) else p)
  else
    d ++ [(k, v)]

/-- The ASCII whitespace characters removed by Python `str.strip()`. -/
def pyWhitespace (c : Char) : Bool :=
  c = ' ' || c = '\t' || c = '\n' || c = '\r' || c = '\x0b' || c = '\x0c'

/-- Python `s.strip()`: remove leading and trailing whitespace. -/
def pyStrip (s : String) : String :=
  ⟨((s.data.dropWhile pyWhitespace).reverse.dropWhile pyWhitespace).reverse⟩

/-- Lines 11-15: `is_target_text_in_range(ref)`. -/
def is_target_text_in_range (ref : String) : Bool :=
  if pyStrip ref = "ignore time segment in scoring" then
    false
  else
    pyStrip ref ≠ ""

/-- The `ValueError` message of `get_text` (lines 30-33).  In the source the
second string literal is not an f-string, so the braces and `sample.keys()`
appear literally and the message is one constant string. -/
def transcriptErrorMessage : String :=
  "Expected transcript column of either \x27text\x27, \x27sentence\x27, \x27normalized_text\x27 or \x27transcript\x27. Got sample of .join\x7bsample.keys()\x7d. Ensure a text column name is present in the dataset."

/-- Lines 18-33: `get_text(sample)`.  Probes the five recognized transcript
column names in order and raises `ValueError` when none is present. -/
def get_text (sample : Fields) : Except String String :=
  match lookupField sample "text" with
  | some v => .ok v
  | none =>
    match lookupField sample "sentence" with
    | some v => .ok v
    | none =>
      match lookupField sample "normalized_text" with
      | some v => .ok v
      | none =>
        match lookupField sample "transcript" with
        | some v => .ok v
        | none =>
          match lookupField sample "transcription" with
          | some v => .ok v
          | none => .error transcriptErrorMessage

/-- A dataset sample: an audio payload of abstract type `α` (the decoded
`"audio"` column) plus its string-valued columns. -/
structure Sample (α : Type) where
  audio : α
  fields : Fields
deriving Repr, DecidableEq

/-- Lines 39-41: `normalise(batch)` sets `batch["norm_text"]` to the
normalizer applied to `get_text(batch)` and returns the batch; a
`ValueError` from `get_text` propagates. `norm` stands for the external
`whisper_norm = BasicTextNormalizer()` instance. -/
def normalise (norm : String → String) (batch : Sample α) : Except String (Sample α) :=
  match get_text batch.fields with
  | .error e => .error e
  | .ok t => .ok { batch with fields := setField batch.fields "norm_text" (norm t) }

/-- The `"norm_text"` column of a sample (present on every sample produced
by `normalise`; the script only reads it after the `map(normalise)` step). -/
def normText (s : Sample α) : String :=
  (lookupField s.fields "norm_text").getD ""

/-- One input item yielded by `data(dataset)` (lines 44-46): the unpacked
audio dict together with the passthrough `"reference"` key. -/
structure PipelineItem (α : Type) where
  audio : α
  reference : String
deriving Repr, DecidableEq

/-- Lines 44-46: `data(dataset)` yields `{**item["audio"], "reference":
item["norm_text"]}` for each dataset item, in order. -/
def data (dataset : List (Sample α)) : List (PipelineItem α) :=
  dataset.map fun item => { audio := item.audio, reference := normText item }

/-- One output dict of the streamed ASR pipeline: the transcription under
`"text"` and the passthrough `"reference"` key, which the batching collation
wraps in a list (the script reads `out["reference"][0]`). -/
structure PipelineOutput where
  text : String
  reference : List String
deriving Repr, DecidableEq

/-- The external `whisper_asr(data(dataset), batch_size=batch_size)` call,
modelled abstractly: the pipeline transcribes each item's audio with the
abstract per-language transcription function `asr` and passes the extra
`"reference"` key through wrapped in a singleton list; outputs are yielded
in input order.  Batching is internal to the external component and does
not change the per-item outputs. -/
def runPipeline (asr : α → String) (_batchSize : Nat) (inputs : List (PipelineItem α)) :
    List PipelineOutput :=
  inputs.map fun i => { text := asr i.audio, reference := [i.reference] }

/-- `datasets.Dataset.map` with a function that may raise: applies `f` to
the items left to right and propagates the first raised error. -/
def hfMap (f : A → Except E B) : List A → Except E (List B)
  | [] => .ok []
  | a :: as =>
    match f a with
    | .error e => .error e
    | .ok b =>
      match hfMap f as with
      | .error e => .error e
      | .ok bs => .ok (b :: bs)

/-- The external components the script delegates to. -/
structure Env (α : Type) where
  /-- `whisper_norm = BasicTextNormalizer()` (line 36). -/
  norm : String → String
  /-- The ASR pipeline built by `pipeline("automatic-speech-recognition",
  model=model_id, device=device)` (lines 51-53): given the model id, the
  device and the language whose decoder prompt ids are forced (lines
  55-59), it transcribes an audio payload. -/
  pipelineOf : String → Int → String → α → String
  /-- `wer_metric.compute(references=·, predictions=·)` (line 8 / 79). -/
  werCompute : List String → List String → ℚ
  /-- Lines 61-67: `load_dataset(dataset, config, streaming=False)` followed
  by `concatenate_datasets(list(dataset.values()))` and the audio cast to
  16 kHz, yielding the samples of the named configuration. -/
  loadDataset : String → String → List (Sample α)

/-- Line 68: the loaded dataset after `dataset.map(normalise)`. -/
def normalisedDataset (env : Env α) (datasetName config : String) :
    Except String (List (Sample α)) :=
  hfMap (normalise env.norm) (env.loadDataset datasetName config)

/-- Line 69: `dataset.filter(is_target_text_in_range,
input_columns=["norm_text"])` applied after the `map(normalise)` step. -/
def filteredDataset (env : Env α) (datasetName config : String) :
    Except String (List (Sample α)) :=
  match normalisedDataset env datasetName config with
  | .error e => .error e
  | .ok ds => .ok (ds.filter fun s => is_target_text_in_range (normText s))

/-- Lines 75-77: the references accumulated by the inference loop, one
`out["reference"][0]` per pipeline output, in order. -/
def referencesOf (asr : α → String) (batchSize : Nat) (dataset : List (Sample α)) :
    List String :=
  (runPipeline asr batchSize (data dataset)).map fun out => out.reference.headD ""

/-- Lines 75-77: the predictions accumulated by the inference loop, one
`whisper_norm(out["text"])` per pipeline output, in order.  (The script
appends to `predictions` and `references` in the same loop iteration, so
the two lists are index-aligned.) -/
def predictionsOf (norm : String → String) (asr : α → String) (batchSize : Nat)
    (dataset : List (Sample α)) : List String :=
  (runPipeline asr batchSize (data dataset)).map fun out => norm out.text

/-- Lines 55-81, one iteration of the per-language loop of `main`: load the
configuration, normalise, filter, run streamed inference, compute WER and
form the printed line `f"{lang} WER: {wer*100}"`. -/
def evalLanguage (env : Env α) (asr : α → String) (batchSize : Nat)
    (datasetName lang config : String) : Except String String :=
  match filteredDataset env datasetName config with
  | .error e => .error e
  | .ok ds =>
    let predictions := predictionsOf env.norm asr batchSize ds
    let references := referencesOf asr batchSize ds
    let wer := env.werCompute references predictions
    .ok (lang ++ " WER: " ++ toString (wer * 100))

/-- The parsed command-line arguments (lines 84-131). -/
structure Args where
  model_id : String
  dataset : String
  configs : List String
  device : Int
  batch_size : Nat
  max_eval_samples : Option Nat
  languages : List String
deriving Repr, DecidableEq

/-- Lines 49-81: `main(args)`.  Builds the pipeline, then iterates over
`zip(args.languages, args.configs)`; the result is the list of printed
lines of a successful run, or the first raised error. -/
def main (env : Env α) (args : Args) : Except String (List String) :=
  hfMap
    (fun lc => evalLanguage env (env.pipelineOf args.model_id args.device lc.1)
      args.batch_size args.dataset lc.1 lc.2)
    (args.languages.zip args.configs)

/-! ## Concrete instances used to exercise the theorems

Small closed environments and argument vectors; the external components are
instantiated with simple computable functions (the WER metric is
instantiated with a function returning the number of references, which
makes the number of scored samples observable in the printed value). -/

/-- A two-sample dataset: one sample using the `"text"` column, one using
the `"sentence"` column. -/
def demoSamples : List (Sample Nat) :=
  [⟨0, [("text", "hello")]⟩, ⟨1, [("sentence", "world")]⟩]

/-- The two demo samples after `map(normalise)` with `pyStrip` as the
normalizer. -/
def demoNormed : List (Sample Nat) :=
  [⟨0, [("text", "hello"), ("norm_text", "hello")]⟩,
   ⟨1, [("sentence", "world"), ("norm_text", "world")]⟩]

/-- A concrete environment over the two-sample dataset. -/
def demoEnv : Env Nat where
  norm := pyStrip
  pipelineOf := fun _ _ _ _ => "hyp"
  werCompute := fun refs _ => (refs.length : ℚ)
  loadDataset := fun _ _ => demoSamples

/-- An environment whose only sample has none of the five transcript
columns. -/
def badEnv : Env Nat :=
  { demoEnv with loadDataset := fun _ _ => [⟨0, [("foo", "bar")]⟩] }

/-- A basic argument vector: one language, one config. -/
def demoArgs : Args where
  model_id := "m"
  dataset := "d"
  configs := ["c1"]
  device := -1
  batch_size := 16
  max_eval_samples := none
  languages := ["en"]

/-- The demo arguments with the sample cap set to 1 (while the loaded
dataset has 2 samples). -/
def c4Args : Args := { demoArgs with max_eval_samples := some 1 }

/-- Two languages but only one config: `zip` drops the second language. -/
def c5Args : Args := { demoArgs with languages := ["en", "fr"] }

/-- Two (language, config) pairs whose first pair agrees with
`demoArgs`. -/
def c8Args : Args := { demoArgs with languages := ["en", "fr"], configs := ["c1", "c1"] }

/-! ## Basic lemmas about the field dictionary -/

theorem lookupField_append (d e : Fields) (key : String) :
    lookupField (d ++ e) key =
      match lookupField d key with
      | some v => some v
      | none => lookupField e key := by
  induction d with
  | nil => simp [lookupField]
  | cons p rest ih =>
    obtain ⟨k, v⟩ := p
    by_cases h : k = key <;> simp [lookupField, h, ih]

theorem lookupField_map_set_self (d : Fields) (k v : String)
    (h : (lookupField d k).isSome) :
    lookupField (d.map fun p => if p.1 = k then (k, v) else p) k = some v := by
  induction d with
  | nil => simp [lookupField] at h
  | cons p rest ih =>
    obtain ⟨k1, v1⟩ := p
    simp only [List.map_cons]
    by_cases hk : k1 = k
    · rw [if_pos hk]
      simp [lookupField]
    · rw [if_neg hk]
      simp only [lookupField, hk, if_false] at h ⊢
      exact ih h

theorem lookupField_map_set_ne (d : Fields) (k v k' : String) (h : k' ≠ k) :
    lookupField (d.map fun p => if p.1 = k then (k, v) else p) k' =
      lookupField d k' := by
  induction d with
  | nil => simp [lookupField]
  | cons p rest ih =>
    obtain ⟨k1, v1⟩ := p
    simp only [List.map_cons]
    by_cases hk : k1 = k
    · rw [if_pos hk]
      simp only [lookupField]
      rw [if_neg (fun hkk : k = k' => h hkk.symm),
        if_neg (fun hkk : k1 = k' => h ((hk ▸ hkk : (k : String) = k').symm))]
      exact ih
    · rw [if_neg hk]
      simp only [lookupField]
      by_cases hk' : k1 = k'
      · rw [if_pos hk', if_pos hk']
      · rw [if_neg hk', if_neg hk']
        exact ih

theorem lookupField_setField_self (d : Fields) (k v : String) :
    lookupField (setField d k v) k = some v := by
  unfold setField
  by_cases h : (lookupField d k).isSome
  · rw [if_pos h]
    exact lookupField_map_set_self d k v h
  · rw [if_neg h, lookupField_append]
    rw [Option.not_isSome_iff_eq_none] at h
    rw [h]
    simp [lookupField]

theorem lookupField_setField_ne (d : Fields) (k v k' : String) (h : k' ≠ k) :
    lookupField (setField d k v) k' = lookupField d k' := by
  unfold setField
  by_cases hs : (lookupField d k).isSome
  · rw [if_pos hs]
    exact lookupField_map_set_ne d k v k' h
  · rw [if_neg hs, lookupField_append]
    rcases hd : lookupField d k' with _ | w
    · simp [lookupField]
      exact fun hkk : k = k' => h hkk.symm
    · rfl

/-! ## Lemmas about `get_text` and `normalise` -/

theorem get_text_error_eq (sample : Fields) (e : String)
    (h : get_text sample = .error e) : e = transcriptErrorMessage := by
  unfold get_text at h
  rcases h1 : lookupField sample "text" with _ | v <;> rw [h1] at h
  case some => simp at h
  rcases h2 : lookupField sample "sentence" with _ | v <;> rw [h2] at h
  case some => simp at h
  rcases h3 : lookupField sample "normalized_text" with _ | v <;> rw [h3] at h
  case some => simp at h
  rcases h4 : lookupField sample "transcript" with _ | v <;> rw [h4] at h
  case some => simp at h
  rcases h5 : lookupField sample "transcription" with _ | v <;> rw [h5] at h
  case some => simp at h
  exact (Except.error.inj h).symm

theorem get_text_none (sample : Fields)
    (h1 : lookupField sample "text" = none)
    (h2 : lookupField sample "sentence" = none)
    (h3 : lookupField sample "normalized_text" = none)
    (h4 : lookupField sample "transcript" = none)
    (h5 : lookupField sample "transcription" = none) :
    get_text sample = .error transcriptErrorMessage := by
  unfold get_text
  rw [h1, h2, h3, h4, h5]

theorem normalise_ok_iff {α : Type} (norm : String → String) (batch b : Sample α) :
    normalise norm batch = .ok b ↔
      ∃ t, get_text batch.fields = .ok t ∧
        b = { batch with fields := setField batch.fields "norm_text" (norm t) } := by
  unfold normalise
  rcases h : get_text batch.fields with e | t <;> simp [h, eq_comm]

theorem normalise_ok_or_error {α : Type} (norm : String → String) (batch : Sample α) :
    (∃ b, normalise norm batch = .ok b) ∨
      normalise norm batch = .error transcriptErrorMessage := by
  unfold normalise
  rcases h : get_text batch.fields with e | t
  · right
    rw [get_text_error_eq batch.fields e h]
  · left
    exact ⟨_, rfl⟩

/-! ## Lemmas about `hfMap` -/

theorem hfMap_ok_length {A E B : Type} (f : A → Except E B) (l : List A)
    (l' : List B) (h : hfMap f l = .ok l') : l'.length = l.length := by
  induction l generalizing l' with
  | nil =>
    unfold hfMap at h
    cases h
    rfl
  | cons a as ih =>
    unfold hfMap at h
    rcases ha : f a with e | b <;> rw [ha] at h
    · cases h
    · rcases has : hfMap f as with e | bs <;> rw [has] at h
      · cases h
      · cases h
        simp [ih bs has]

theorem hfMap_ok_get (f : A → Except E B) (l : List A) (l' : List B)
    (h : hfMap f l = .ok l') :
    ∀ i a, l.get? i = some a → ∃ b, f a = .ok b ∧ l'.get? i = some b := by
  induction l generalizing l' with
  | nil => intro i a hi; simp at hi
  | cons x xs ih =>
    unfold hfMap at h
    rcases hx : f x with e | b <;> rw [hx] at h
    · cases h
    · rcases hxs : hfMap f xs with e | bs <;> rw [hxs] at h
      · cases h
      · cases h
        intro i a hi
        cases i with
        | zero =>
          cases hi
          exact ⟨b, hx, rfl⟩
        | succ j => exact ih bs hxs j a hi

theorem hfMap_ok_mem (f : A → Except E B) (l : List A) (l' : List B)
    (h : hfMap f l = .ok l') :
    ∀ b ∈ l', ∃ a ∈ l, f a = .ok b := by
  induction l generalizing l' with
  | nil =>
    unfold hfMap at h
    cases h
    intro b hb
    simp at hb
  | cons x xs ih =>
    unfold hfMap at h
    rcases hx : f x with e | b0 <;> rw [hx] at h
    · cases h
    · rcases hxs : hfMap f xs with e | bs <;> rw [hxs] at h
      · cases h
      · cases h
        intro b hb
        rcases List.mem_cons.mp hb with hb | hb
        · exact ⟨x, List.mem_cons_self x xs, hb ▸ hx⟩
        · obtain ⟨a, ha, hfa⟩ := ih bs hxs b hb
          exact ⟨a, List.mem_cons_of_mem x ha, hfa⟩

theorem hfMap_error_of_mem (f : A → Except E B) (l : List A) (e : E)
    (hall : ∀ x ∈ l, (∃ b, f x = .ok b) ∨ f x = .error e)
    (a : A) (ha : a ∈ l) (hfa : f a = .error e) :
    hfMap f l = .error e := by
  induction l with
  | nil => simp at ha
  | cons x xs ih =>
    unfold hfMap
    rcases List.mem_cons.mp ha with hax | hax
    · subst hax
      rw [hfa]
    · rcases hall x (List.mem_cons_self x xs) with ⟨b, hb⟩ | hb
      · rw [hb, ih (fun y hy => hall y (List.mem_cons_of_mem x hy)) hax]
      · rw [hb]

/-! ## Lemmas about `evalLanguage` -/

theorem evalLanguage_ok_iff {α : Type} (env : Env α) (asr : α → String)
    (batchSize : Nat) (datasetName lang config : String) (line : String) :
    evalLanguage env asr batchSize datasetName lang config = .ok line ↔
      ∃ ds, filteredDataset env datasetName config = .ok ds ∧
        line = lang ++ " WER: " ++
          toString (env.werCompute (referencesOf asr batchSize ds)
            (predictionsOf env.norm asr batchSize ds) * 100) := by
  unfold evalLanguage
  rcases h : filteredDataset env datasetName config with e | ds <;> simp [h, eq_comm]

theorem is_target_text_in_range_iff (ref : String) :
    is_target_text_in_range ref = true ↔
      ¬(pyStrip ref = "" ∨ pyStrip ref = "ignore time segment in scoring") := by
  unfold is_target_text_in_range
  by_cases h : pyStrip ref = "ignore time segment in scoring" <;> simp [h]

/-! ## The claims -/

/-- C1: after `map(normalise)`, the `filter(is_target_text_in_range,
input_columns=["norm_text"])` step excludes exactly those samples whose
normalized reference text strips to the empty string or to the sentinel
`"ignore time segment in scoring"`, and retains every other sample
(stripping applies to both tests, as in `is_target_text_in_range`). -/
theorem claim_C1 {α : Type} (env : Env α) (datasetName config : String)
    (normed : List (Sample α))
    (hn : normalisedDataset env datasetName config = .ok normed) :
    filteredDataset env datasetName config =
      .ok (normed.filter fun s => is_target_text_in_range (normText s)) ∧
    ∀ s ∈ normed,
      ((pyStrip (normText s) = "" ∨
          pyStrip (normText s) = "ignore time segment in scoring") →
        s ∉ normed.filter fun s => is_target_text_in_range (normText s)) ∧
      (¬(pyStrip (normText s) = "" ∨
          pyStrip (normText s) = "ignore time segment in scoring") →
        s ∈ normed.filter fun s => is_target_text_in_range (normText s)) := by
  constructor
  · unfold filteredDataset
    rw [hn]
  · intro s hs
    constructor
    · intro hbad hmem
      have hkeep := (List.mem_filter.mp hmem).2
      rw [is_target_text_in_range_iff] at hkeep
      exact hkeep hbad
    · intro hgood
      exact List.mem_filter.mpr ⟨hs, (is_target_text_in_range_iff _).mpr hgood⟩

/-- Exercises `claim_C1` on the two-sample demo dataset (both samples are
retained, as neither normalized transcript is empty or the sentinel). -/
theorem claim_C1_witness :
    filteredDataset demoEnv "d" "c1" =
      .ok (demoNormed.filter fun s => is_target_text_in_range (normText s)) :=
  (claim_C1 demoEnv "d" "c1" demoNormed rfl).1

/-- C2: a sample carrying none of the five recognized transcript columns
makes `get_text` raise the descriptive `ValueError`, and the per-language
evaluation that loads such a sample fails with that error instead of
silently skipping the sample. -/
theorem claim_C2 {α : Type} (env : Env α) (asr : α → String) (batchSize : Nat)
    (datasetName lang config : String) (s : Sample α)
    (hs : s ∈ env.loadDataset datasetName config)
    (h1 : lookupField s.fields "text" = none)
    (h2 : lookupField s.fields "sentence" = none)
    (h3 : lookupField s.fields "normalized_text" = none)
    (h4 : lookupField s.fields "transcript" = none)
    (h5 : lookupField s.fields "transcription" = none) :
    get_text s.fields = .error transcriptErrorMessage ∧
    evalLanguage env asr batchSize datasetName lang config =
      .error transcriptErrorMessage := by
  have hget := get_text_none s.fields h1 h2 h3 h4 h5
  refine ⟨hget, ?_⟩
  have hnorm : normalise env.norm s = .error transcriptErrorMessage := by
    unfold normalise
    rw [hget]
  have hds : normalisedDataset env datasetName config = .error transcriptErrorMessage := by
    unfold normalisedDataset
    exact hfMap_error_of_mem _ _ _ (fun x _ => normalise_ok_or_error env.norm x) s hs hnorm
  unfold evalLanguage filteredDataset
  rw [hds]

/-- Exercises `claim_C2` on an environment whose only sample has a single
unrecognized column `"foo"`. -/
theorem claim_C2_witness :
    get_text [("foo", "bar")] = .error transcriptErrorMessage ∧
    evalLanguage badEnv (fun _ => "hyp") 16 "d" "en" "c1" =
      .error transcriptErrorMessage :=
  claim_C2 badEnv (fun _ => "hyp") 16 "d" "en" "c1" ⟨0, [("foo", "bar")]⟩
    (by decide) rfl rfl rfl rfl rfl

/-- C3: the references passed to the metric are exactly the `norm_text`
values of the filtered samples, each of which is the normalizer applied to
the sample's raw transcript; the predictions are the same normalizer
applied to the pipeline's raw output text; and the per-language WER is
computed on precisely these two lists. -/
theorem claim_C3 {α : Type} (env : Env α) (asr : α → String) (batchSize : Nat)
    (datasetName lang config : String) (ds : List (Sample α))
    (hf : filteredDataset env datasetName config = .ok ds) :
    referencesOf asr batchSize ds = ds.map (fun s => normText s) ∧
    predictionsOf env.norm asr batchSize ds =
      ds.map (fun s => env.norm (asr s.audio)) ∧
    (∀ s ∈ ds, ∃ s₀ t, s₀ ∈ env.loadDataset datasetName config ∧
      get_text s₀.fields = .ok t ∧ normText s = env.norm t) ∧
    evalLanguage env asr batchSize datasetName lang config =
      .ok (lang ++ " WER: " ++
        toString (env.werCompute (referencesOf asr batchSize ds)
          (predictionsOf env.norm asr batchSize ds) * 100)) := by
  refine ⟨?_, ?_, ?_, ?_⟩
  · unfold referencesOf runPipeline data
    simp [List.headD]
  · unfold predictionsOf runPipeline data
    simp
  · intro s hsd
    unfold filteredDataset at hf
    rcases hn : normalisedDataset env datasetName config with e | normed <;> rw [hn] at hf
    · cases hf
    · cases hf
      have hsn : s ∈ normed := (List.mem_filter.mp hsd).1
      unfold normalisedDataset at hn
      obtain ⟨s₀, hs₀, hok⟩ := hfMap_ok_mem _ _ _ hn s hsn
      rw [normalise_ok_iff] at hok
      obtain ⟨t, hget, rfl⟩ := hok
      refine ⟨s₀, t, hs₀, hget, ?_⟩
      unfold normText
      rw [lookupField_setField_self]
      rfl
  · rw [evalLanguage_ok_iff]
    exact ⟨ds, hf, rfl⟩

/-- Exercises `claim_C3` on the demo dataset: the references are the
`norm_text` column of the two retained samples. -/
theorem claim_C3_witness :
    referencesOf (fun _ => "hyp") 16 demoNormed =
      demoNormed.map (fun s => normText s) :=
  (claim_C3 demoEnv (fun _ => "hyp") 16 "d" "en" "c1" demoNormed rfl).1

/-- C4: the script parses `--max_eval_samples` but `main` never reads it,
so the cap does not limit the number of scored samples: with the cap set
to 1 over a 2-sample dataset, both samples are scored (the instantiated
metric reports the number of references, and the printed value is
`2 * 100`), and the run's output is entirely independent of the cap. -/
theorem claim_C4 :
    c4Args.max_eval_samples = some 1 ∧
    (demoEnv.loadDataset c4Args.dataset "c1").length = 2 ∧
    filteredDataset demoEnv c4Args.dataset "c1" = .ok demoNormed ∧
    demoNormed.length = 2 ∧
    main demoEnv c4Args = .ok ["en WER: 200"] ∧
    ∀ cap : Option Nat,
      main demoEnv { c4Args with max_eval_samples := cap } = main demoEnv c4Args := by
  refine ⟨rfl, rfl, rfl, rfl, ?_, fun _ => rfl⟩
  have h : main demoEnv c4Args = .ok ["en WER: " ++ toString ((2 : ℚ) * 100)] := rfl
  rw [h, show ((2 : ℚ) * 100) = 200 by norm_num]
  exact rfl

/-- C5 counterexample: with two languages but a single config, `zip`
truncates and the run prints a single line, not one line per language. -/
theorem claim_C5_counterexample :
    c5Args.languages.length = 2 ∧
    Except.map List.length (main demoEnv c5Args) = .ok 1 ∧
    (1 : Nat) ≠ 2 := by
  refine ⟨rfl, ?_, by decide⟩
  have h : main demoEnv c5Args = .ok ["en WER: " ++ toString ((2 : ℚ) * 100)] := rfl
  rw [h]
  rfl

/-- C5 (amended): one line is printed per zipped (language, config) pair —
hence exactly one per language whenever the two argument lists have equal
length — and the i-th line reports that pair's computed WER multiplied
by 100. -/
theorem claim_C5 {α : Type} (env : Env α) (args : Args) (lines : List String)
    (hrun : main env args = .ok lines) :
    lines.length = (args.languages.zip args.configs).length ∧
    (args.languages.length = args.configs.length →
      lines.length = args.languages.length) ∧
    ∀ i lang config,
      (args.languages.zip args.configs).get? i = some (lang, config) →
      ∃ ds, filteredDataset env args.dataset config = .ok ds ∧
        lines.get? i = some (lang ++ " WER: " ++
          toString (env.werCompute
            (referencesOf (env.pipelineOf args.model_id args.device lang)
              args.batch_size ds)
            (predictionsOf env.norm (env.pipelineOf args.model_id args.device lang)
              args.batch_size ds) * 100)) := by
  refine ⟨hfMap_ok_length _ _ _ hrun, ?_, ?_⟩
  · intro hlen
    have h1 := hfMap_ok_length _ _ _ hrun
    rw [List.length_zip] at h1
    omega
  · intro i lang config hi
    obtain ⟨line, hev, hline⟩ := hfMap_ok_get _ _ _ hrun i (lang, config) hi
    simp only at hev
    rw [evalLanguage_ok_iff] at hev
    obtain ⟨ds, hds, rfl⟩ := hev
    exact ⟨ds, hds, hline⟩

/-- Exercises `claim_C5` on the demo run (one language, one config): the
number of printed lines equals the number of zipped pairs. -/
theorem claim_C5_witness :
    (["en WER: " ++ toString ((2 : ℚ) * 100)] : List String).length =
      (demoArgs.languages.zip demoArgs.configs).length :=
  (claim_C5 demoEnv demoArgs ["en WER: " ++ toString ((2 : ℚ) * 100)] rfl).1

/-- C6: the run is a deterministic function of its inputs — two runs with
extensionally equal external components and equal arguments produce the
same per-language results. -/
theorem claim_C6 {α : Type} (env env' : Env α) (args args' : Args)
    (hnorm : env.norm = env'.norm) (hpipe : env.pipelineOf = env'.pipelineOf)
    (hwer : env.werCompute = env'.werCompute)
    (hload : env.loadDataset = env'.loadDataset)
    (hargs : args = args') :
    main env args = main env' args' := by
  subst hargs
  obtain ⟨n, p, w, l⟩ := env
  obtain ⟨n', p', w', l'⟩ := env'
  simp only at hnorm hpipe hwer hload
  subst hnorm hpipe hwer hload
  rfl

/-- Exercises `claim_C6`: running the demo configuration twice yields the
same output. -/
theorem claim_C6_witness : main demoEnv demoArgs = main demoEnv demoArgs :=
  claim_C6 demoEnv demoEnv demoArgs demoArgs rfl rfl rfl rfl rfl

/-- C7: the i-th printed line of a successful run is the evaluation of the
i-th zipped (language, config) pair, and every sample scored for that pair
arises (via `normalise`) from a sample of the dataset loaded for that
pair's configuration. -/
theorem claim_C7 {α : Type} (env : Env α) (args : Args) (lines : List String)
    (hrun : main env args = .ok lines)
    (i : Nat) (lang config : String)
    (hp : (args.languages.zip args.configs).get? i = some (lang, config)) :
    (∃ line, lines.get? i = some line ∧
      evalLanguage env (env.pipelineOf args.model_id args.device lang)
        args.batch_size args.dataset lang config = .ok line) ∧
    ∀ ds, filteredDataset env args.dataset config = .ok ds →
      ∀ s ∈ ds, ∃ s₀, s₀ ∈ env.loadDataset args.dataset config ∧
        normalise env.norm s₀ = .ok s := by
  constructor
  · obtain ⟨line, hev, hline⟩ := hfMap_ok_get _ _ _ hrun i (lang, config) hp
    simp only at hev
    exact ⟨line, hline, hev⟩
  · intro ds hds s hs
    unfold filteredDataset at hds
    rcases hn : normalisedDataset env args.dataset config with e | normed <;> rw [hn] at hds
    · cases hds
    · cases hds
      have hsn : s ∈ normed := (List.mem_filter.mp hs).1
      unfold normalisedDataset at hn
      exact hfMap_ok_mem _ _ _ hn s hsn

/-- Exercises `claim_C7` on the demo run at index 0. -/
theorem claim_C7_witness :
    ∃ line,
      (["en WER: " ++ toString ((2 : ℚ) * 100)] : List String).get? 0 = some line ∧
      evalLanguage demoEnv (demoEnv.pipelineOf demoArgs.model_id demoArgs.device "en")
        demoArgs.batch_size demoArgs.dataset "en" "c1" = .ok line :=
  (claim_C7 demoEnv demoArgs ["en WER: " ++ toString ((2 : ℚ) * 100)] rfl 0 "en" "c1" rfl).1

/-- C8: the accumulation lists are rebuilt from scratch inside each
language iteration, so the line printed at index i depends only on the
i-th (language, config) pair and the fixed run parameters — two runs that
agree on those, but may differ in the languages processed before or after,
print the same i-th line. -/
theorem claim_C8 {α : Type} (env : Env α) (args args' : Args)
    (lines lines' : List String)
    (hrun : main env args = .ok lines) (hrun' : main env args' = .ok lines')
    (hm : args.model_id = args'.model_id) (hd : args.device = args'.device)
    (hb : args.batch_size = args'.batch_size) (hds : args.dataset = args'.dataset)
    (i : Nat) (lang config : String)
    (hp : (args.languages.zip args.configs).get? i = some (lang, config))
    (hp' : (args'.languages.zip args'.configs).get? i = some (lang, config)) :
    lines.get? i = lines'.get? i := by
  obtain ⟨line, hev, hline⟩ := hfMap_ok_get _ _ _ hrun i (lang, config) hp
  obtain ⟨line', hev', hline'⟩ := hfMap_ok_get _ _ _ hrun' i (lang, config) hp'
  simp only at hev hev'
  rw [hm, hd, hb, hds] at hev
  rw [hev] at hev'
  injection hev' with hll
  rw [hline, hline', hll]

/-- Exercises `claim_C8`: a run over (en, fr) and a run over just (en)
agree on the line printed for en. -/
theorem claim_C8_witness :
    (["en WER: " ++ toString ((2 : ℚ) * 100),
      "fr WER: " ++ toString ((2 : ℚ) * 100)] : List String).get? 0 =
      (["en WER: " ++ toString ((2 : ℚ) * 100)] : List String).get? 0 :=
  claim_C8 demoEnv c8Args demoArgs
    ["en WER: " ++ toString ((2 : ℚ) * 100), "fr WER: " ++ toString ((2 : ℚ) * 100)]
    ["en WER: " ++ toString ((2 : ℚ) * 100)]
    rfl rfl rfl rfl rfl rfl 0 "en" "c1" rfl rfl

/-- C9: `get_text` probes the transcript columns in the fixed precedence
order `"text"`, `"sentence"`, `"normalized_text"`, `"transcript"`,
`"transcription"` and returns the value of the first one present. -/
theorem claim_C9 (sample : Fields) :
    (∀ v, lookupField sample "text" = some v → get_text sample = .ok v) ∧
    (lookupField sample "text" = none →
      ∀ v, lookupField sample "sentence" = some v → get_text sample = .ok v) ∧
    (lookupField sample "text" = none → lookupField sample "sentence" = none →
      ∀ v, lookupField sample "normalized_text" = some v →
        get_text sample = .ok v) ∧
    (lookupField sample "text" = none → lookupField sample "sentence" = none →
      lookupField sample "normalized_text" = none →
      ∀ v, lookupField sample "transcript" = some v → get_text sample = .ok v) ∧
    (lookupField sample "text" = none → lookupField sample "sentence" = none →
      lookupField sample "normalized_text" = none →
      lookupField sample "transcript" = none →
      ∀ v, lookupField sample "transcription" = some v →
        get_text sample = .ok v) := by
  unfold get_text
  refine ⟨?_, ?_, ?_, ?_, ?_⟩
  · intro v h1
    rw [h1]
  · intro h1 v h2
    rw [h1, h2]
  · intro h1 h2 v h3
    rw [h1, h2, h3]
  · intro h1 h2 h3 v h4
    rw [h1, h2, h3, h4]
  · intro h1 h2 h3 h4 v h5
    rw [h1, h2, h3, h4, h5]

/-- Exercises `claim_C9` on a sample that carries `"transcription"`,
`"sentence"` and `"text"`: the `"text"` value wins. -/
theorem claim_C9_witness :
    get_text [("transcription", "e"), ("sentence", "b"), ("text", "a")] = .ok "a" :=
  (claim_C9 [("transcription", "e"), ("sentence", "b"), ("text", "a")]).1 "a" rfl

/-- C10: `normalise` only sets the `"norm_text"` column — to the normalizer
applied to the sample's transcript — and leaves the audio payload and the
binding of every other column unchanged. -/
theorem claim_C10 {α : Type} (norm : String → String) (batch batch' : Sample α)
    (h : normalise norm batch = .ok batch') :
    batch'.audio = batch.audio ∧
    (∃ t, get_text batch.fields = .ok t ∧
      lookupField batch'.fields "norm_text" = some (norm t)) ∧
    ∀ k, k ≠ "norm_text" →
      lookupField batch'.fields k = lookupField batch.fields k := by
  rw [normalise_ok_iff] at h
  obtain ⟨t, hget, rfl⟩ := h
  exact ⟨rfl, ⟨t, hget, lookupField_setField_self _ _ _⟩,
    fun k hk => lookupField_setField_ne _ _ _ _ hk⟩

/-- Exercises `claim_C10` on a one-column sample: `"norm_text"` is added
with the stripped transcript and the `"text"` binding is untouched. -/
theorem claim_C10_witness :
    (⟨0, [("text", " hi "), ("norm_text", "hi")]⟩ : Sample Nat).audio =
      (⟨0, [("text", " hi ")]⟩ : Sample Nat).audio ∧
    (∃ t, get_text [("text", " hi ")] = .ok t ∧
      lookupField [("text", " hi "), ("norm_text", "hi")] "norm_text" =
        some (pyStrip t)) ∧
    ∀ k, k ≠ "norm_text" →
      lookupField [("text", " hi "), ("norm_text", "hi")] k =
        lookupField [("text", " hi ")] k :=
  claim_C10 pyStrip ⟨0, [("text", " hi ")]⟩ ⟨0, [("text", " hi "), ("norm_text", "hi")]⟩ rfl

end RunEvalWhisper
